import Mathlib

/-!
Shallow embedding of the RDF-datastore wrapper (`src/RDFDatastore.ts`,
`src/utils.ts`) and the MUD engine (`src/mud/MudWorld.ts`,
`src/mud/CommandProcessor.ts`) built on top of the N3.js triple store,
together with proofs settling the specification claims.

Modelling conventions:
- RDF/JS terms are a tagged value type `Term`; literal equality is
  structural on (value, language, datatype), matching N3.js term equality.
- The N3 `Store` is modelled as an insertion-ordered duplicate-free list of
  quads: `addQuad` is a set insert appending at the end, `removeQuad`
  removes the quad, `getQuads` filters in store order.  A quad built
  without an explicit graph carries the `DefaultGraph` term (whose `value`
  is the empty string), exactly as N3's `DataFactory.quad` does.
- JavaScript strings are Lean `String`s; `split('/')` is modelled by the
  structurally recursive `splitOnSlash` below, `Array.prototype.includes`
  style substring search (`String.prototype.includes`) by list infix.
-/

/-- Term models an RDF/JS term as produced by N3's DataFactory: a named
node, a blank node, a literal (value, language tag, datatype URI), or the
default-graph marker.  N3 compares literals structurally on all three
fields; untyped literals get the xsd:string datatype and empty language. -/
inductive Term where
  | namedNode (uriValue : String)
  | blankNode (idValue : String)
  | literal (litValue : String) (language : String) (datatypeUri : String)
  | defaultGraph
deriving DecidableEq, Repr

/-- Value of a term, as the RDF/JS `.value` accessor: the URI of a named
node, the id of a blank node, the lexical form of a literal; the default
graph has the empty value string. -/
def Term.value : Term → String
  | .namedNode v => v
  | .blankNode v => v
  | .literal v _ _ => v
  | .defaultGraph => ""

/-- Statement (quad): subject, predicate, object and graph term.  N3 always
materializes the graph; a triple added without one carries `defaultGraph`. -/
structure Quad where
  subject : Term
  predicate : Term
  object : Term
  graph : Term
deriving DecidableEq, Repr

/-- Source `utils.ts` `createNamedNode(uri)`. -/
def createNamedNode (uri : String) : Term := Term.namedNode uri

/-- Source `utils.ts` `createLiteral(value)` with no language or datatype:
N3 assigns the xsd:string datatype to plain literals. -/
def createLiteral (value : String) : Term :=
  Term.literal value "" "http://www.w3.org/2001/XMLSchema#string"

/-- Source `utils.ts` `createTypedLiteral(value, datatype)`. -/
def createTypedLiteral (value : String) (datatype : String) : Term :=
  Term.literal value "" datatype

/-- Source `utils.ts` `createBooleanLiteral(value)`: `value.toString()`
typed with xsd:boolean. -/
def createBooleanLiteral (value : Bool) : Term :=
  createTypedLiteral (if value then "true" else "false")
    "http://www.w3.org/2001/XMLSchema#boolean"

/-- Query pattern from `types.ts`: each field may be a fixed term or
unconstrained (`null`/`undefined`, modelled as `none`). -/
structure QueryPattern where
  subject : Option Term := none
  predicate : Option Term := none
  object : Option Term := none
  graph : Option Term := none

/-- One field of a pattern matches a term when it is unconstrained or equal. -/
def fieldMatches (pat : Option Term) (t : Term) : Bool :=
  match pat with
  | none => true
  | some p => t = p

/-- A quad matches a pattern when all four fields match (N3 `getQuads` with
`null` wildcards). -/
def quadMatches (pat : QueryPattern) (q : Quad) : Bool :=
  fieldMatches pat.subject q.subject && fieldMatches pat.predicate q.predicate &&
    fieldMatches pat.object q.object && fieldMatches pat.graph q.graph

/-- Datastore statistics record from `types.ts`. -/
structure DatastoreStats where
  tripleCount : Nat
  subjectCount : Nat
  predicateCount : Nat
  graphCount : Nat
deriving DecidableEq, Repr

/-- RDFDatastore state: the wrapped N3 store (insertion-ordered set of
quads) and the per-store serialization prefix table (a JS object, i.e. an
insertion-ordered key-value map). -/
structure RDFDatastore where
  store : List Quad
  prefixes : List (String × String)
deriving DecidableEq, Repr

/-- The RDFDatastore constructor with no initial quads: empty store and the
three built-in prefixes. -/
def RDFDatastore.init : RDFDatastore :=
  { store := []
    prefixes := [("rdf", "http://www.w3.org/1999/02/22-rdf-syntax-ns#"),
                 ("rdfs", "http://www.w3.org/2000/01/rdf-schema#"),
                 ("xsd", "http://www.w3.org/2001/XMLSchema#")] }

/-- N3 `DataFactory.quad` as used by `addTriple`/`removeTriple`/`has`: an
omitted graph argument yields the default graph. -/
def mkQuad (s p o : Term) (g : Option Term) : Quad :=
  { subject := s, predicate := p, object := o, graph := g.getD Term.defaultGraph }

/-- N3 `Store.addQuad`: set insert, a no-op when the quad is present. -/
def RDFDatastore.addQuad (ds : RDFDatastore) (q : Quad) : RDFDatastore :=
  if q ∈ ds.store then ds else { ds with store := ds.store ++ [q] }

/-- Source `addTriple(subject, predicate, object, graph?)`. -/
def RDFDatastore.addTriple (ds : RDFDatastore) (s p o : Term) (g : Option Term) :
    RDFDatastore :=
  ds.addQuad (mkQuad s p o g)

/-- N3 `Store.addQuads`: adds each quad in order (used by `addQuads`). -/
def RDFDatastore.addQuads (ds : RDFDatastore) (qs : List Quad) : RDFDatastore :=
  qs.foldl RDFDatastore.addQuad ds

/-- Source `removeTriple(subject, predicate, object, graph?)`: N3
`Store.removeQuad`, a no-op when absent. -/
def RDFDatastore.removeTriple (ds : RDFDatastore) (s p o : Term) (g : Option Term) :
    RDFDatastore :=
  { ds with store := ds.store.filter (fun q => q ≠ mkQuad s p o g) }

/-- Source `match(pattern)`: all quads matching the pattern, in store order. -/
def RDFDatastore.matchQuads (ds : RDFDatastore) (pat : QueryPattern) : List Quad :=
  ds.store.filter (quadMatches pat)

/-- Source `getObjects(subject, predicate, graph?)`: objects of matching
quads (graph unconstrained when omitted). -/
def RDFDatastore.getObjects (ds : RDFDatastore) (s p : Term) (g : Option Term) :
    List Term :=
  (ds.matchQuads { subject := some s, predicate := some p, graph := g }).map
    (fun q => q.object)

/-- Source `has(subject, predicate, object, graph?)`: exact existence check. -/
def RDFDatastore.hasTriple (ds : RDFDatastore) (s p o : Term) (g : Option Term) :
    Bool :=
  mkQuad s p o g ∈ ds.store

/-- Source `size()`: N3 `Store.size`, the number of (distinct) quads. -/
def RDFDatastore.size (ds : RDFDatastore) : Nat := ds.store.length

/-- Source `setPrefix(prefix, uri)`: JS object assignment
`this.prefixes[prefix] = uri` — updates the entry in place when the key
exists, otherwise appends it. -/
def RDFDatastore.prefixSet (ds : RDFDatastore) (p uri : String) : RDFDatastore :=
  { ds with prefixes :=
      if ds.prefixes.any (fun kv => kv.1 = p) then
        ds.prefixes.map (fun kv => if kv.1 = p then (p, uri) else kv)
      else ds.prefixes ++ [(p, uri)] }

/-- JavaScript truthiness of an RDF/JS term object: terms are objects, so
the test `if (quad.graph)` in `getStats` is true for every quad — N3
materializes the default graph as a `DefaultGraph` term (value `""`),
never as `null` or `undefined`. -/
def termTruthy (_t : Term) : Bool := true

/-- Source `getStats()`: triple count, distinct subject terms, distinct
predicate terms (JS `Set` of terms, modelled by structural distinctness),
and the set of `quad.graph.value` strings over the quads passing the
`if (quad.graph)` guard. -/
def RDFDatastore.getStats (ds : RDFDatastore) : DatastoreStats :=
  { tripleCount := ds.store.length
    subjectCount := ((ds.store.map (fun q => q.subject)).dedup).length
    predicateCount := ((ds.store.map (fun q => q.predicate)).dedup).length
    graphCount :=
      (((ds.store.filter (fun q => termTruthy q.graph)).map
        (fun q => q.graph.value)).dedup).length }

/-- One callback invocation of the N3 parser inside `parseFromString`:
either a decoded quad, a syntax error, or the completion signal carrying
the declared prefixes. -/
inductive ParseEvent where
  | emitQuad (q : Quad)
  | emitError (e : String)
  | emitEnd (declared : List (String × String))

/-- Commit step of `parseFromString` on successful completion: the buffered
quads are merged via `addQuads` and every declared prefix is merged via
`setPrefix`. -/
def RDFDatastore.commitParse (ds : RDFDatastore) (buffered : List Quad)
    (declared : List (String × String)) : RDFDatastore :=
  declared.foldl (fun d kv => RDFDatastore.prefixSet d kv.1 kv.2) (ds.addQuads buffered)

/-- The callback body of `parseFromString`, run over the parser's event
sequence: a quad event pushes onto the local `quads` buffer (the store is
not touched), an error event rejects with the store as it stands, and the
completion event commits the buffer and the declared prefixes.  The parser
stops after an error or completion, so later events are unreachable. -/
def runParse (ds : RDFDatastore) : List Quad → List ParseEvent →
    RDFDatastore × Option String
  | _, [] => (ds, none)
  | buffered, ParseEvent.emitQuad q :: rest => runParse ds (buffered ++ [q]) rest
  | _, ParseEvent.emitError e :: _ => (ds, some e)
  | buffered, ParseEvent.emitEnd declared :: _ =>
      (ds.commitParse buffered declared, none)

/-- Source `parseFromString(data, format)`: processes the parser's events
for the input text; the second component is the rejection error, if any. -/
def RDFDatastore.parseFromString (ds : RDFDatastore) (events : List ParseEvent) :
    RDFDatastore × Option String :=
  runParse ds [] events

/-- Splits a character list at every occurrence of the slash character,
mirroring JavaScript `String.prototype.split('/')` (adjacent separators
and boundary separators produce empty segments). -/
def splitOnSlash : List Char → List (List Char)
  | [] => [[]]
  | c :: cs =>
      let rest := splitOnSlash cs
      if c = '/' then [] :: rest
      else
        match rest with
        | [] => [[c]]
        | seg :: segs => (c :: seg) :: segs

/-- JavaScript `uri.split('/').pop() || ''`: the last slash-separated
segment of a string (`split` always yields a nonempty array, so `pop`
returns its last element; the `|| ''` default only replaces an
already-empty segment). -/
def segLast (s : String) : String :=
  ((splitOnSlash s.toList).getLastD []).asString

/-- JavaScript `uri.split('/').pop() || null`: the last segment, or `null`
when that segment is the empty string (empty strings are falsy). -/
def segLastOrNull (s : String) : Option String :=
  let seg := segLast s
  if seg = "" then none else some seg

/-- Source `src/mud/ontology.ts`: the fixed MUD namespace `MUD_NS`. -/
def MUD_NS : String := "http://example.org/mud#"

/-- Source `src/mud/ontology.ts` `mudTerm(localName)`: builds the named
node `MUD_NS + localName`. -/
def mudTerm (localName : String) : Term :=
  createNamedNode (MUD_NS ++ localName)

/- Source `src/mud/ontology.ts` `mudVocab`: one named node per local name
— classes Room/Item/Player, properties name, description, location,
contains, portable, the six exit directions, and inventory. -/
namespace mudVocab

/-- The mud:name property term. -/
def name : Term := mudTerm "name"

/-- The mud:description property term. -/
def description : Term := mudTerm "description"

/-- The mud:location property term. -/
def location : Term := mudTerm "location"

/-- The mud:contains property term. -/
def contains : Term := mudTerm "contains"

/-- The mud:portable property term. -/
def portable : Term := mudTerm "portable"

/-- The mud:inventory property term. -/
def inventory : Term := mudTerm "inventory"

/-- The mud:Room class term. -/
def Room : Term := mudTerm "Room"

/-- The mud:Item class term. -/
def Item : Term := mudTerm "Item"

/-- The mud:Player class term. -/
def Player : Term := mudTerm "Player"

end mudVocab

/-- Source `src/mud/ontology.ts` `rdfTypes.type`: `vocab.rdf('type')` from
`utils.ts`, the rdf namespace URI concatenated with the local name. -/
def rdfType : Term :=
  createNamedNode ("http://www.w3.org/1999/02/22-rdf-syntax-ns#" ++ "type")

/-- Source `src/mud/ontology.ts` `exitDirections`: the six exit directions,
in the order `getRoomExits` iterates them. -/
def exitDirections : List String :=
  ["north", "south", "east", "west", "up", "down"]

/-- MudWorld state: the wrapped datastore and the shared monotonically
increasing entity counter. -/
structure MudWorld where
  store : RDFDatastore
  entityCounter : Nat
deriving DecidableEq, Repr

/-- The MudWorld constructor: fresh datastore, counter zero, and the `mud`
prefix registered for serialization (`mudPrefix.mud` from `ontology.ts` is
the MUD namespace). -/
def MudWorld.init : MudWorld :=
  { store := RDFDatastore.init.prefixSet "mud" MUD_NS
    entityCounter := 0 }

/-- Source `generateId(type)`: increments the shared counter and returns
`type + '-' + counter` together with the updated world. -/
def MudWorld.generateId (w : MudWorld) (ty : String) : String × MudWorld :=
  let c := w.entityCounter + 1
  (ty ++ "-" ++ toString c, { w with entityCounter := c })

/-- Source `entityUri(id)`: the fixed base path concatenated with the id. -/
def entityUri (id : String) : Term :=
  createNamedNode ("http://example.org/game/" ++ id)

/-- Source `createRoom(name, description)`: allocates an id and inserts the
type, name and description triples. -/
def MudWorld.createRoom (w : MudWorld) (roomName roomDescription : String) :
    String × MudWorld :=
  let (id, w1) := w.generateId "room"
  let room := entityUri id
  let ds := ((w1.store.addTriple room rdfType mudVocab.Room none).addTriple
      room mudVocab.name (createLiteral roomName) none).addTriple
      room mudVocab.description (createLiteral roomDescription) none
  (id, { w1 with store := ds })

/-- Source `connectRooms(fromRoomId, direction, toRoomId)`: inserts the one
directional exit triple `fromRoom --direction--> toRoom`. -/
def MudWorld.connectRooms (w : MudWorld) (fromRoomId direction toRoomId : String) :
    MudWorld :=
  let ds :=
    w.store.addTriple (entityUri fromRoomId) (mudTerm direction)
      (entityUri toRoomId) none
  { w with store := ds }

/-- Source `createItem(name, description, portable)`: allocates an id and
inserts the type, name, description and portability triples. -/
def MudWorld.createItem (w : MudWorld) (itemName itemDescription : String)
    (portableFlag : Bool) : String × MudWorld :=
  let (id, w1) := w.generateId "item"
  let item := entityUri id
  let ds := (((w1.store.addTriple item rdfType mudVocab.Item none).addTriple
      item mudVocab.name (createLiteral itemName) none).addTriple
      item mudVocab.description (createLiteral itemDescription) none).addTriple
      item mudVocab.portable (createBooleanLiteral portableFlag) none
  (id, { w1 with store := ds })

/-- Source `placeItem(itemId, roomId)`: inserts the item's location triple
and the room's reverse containment triple (no prior-location cleanup). -/
def MudWorld.placeItem (w : MudWorld) (itemId roomId : String) : MudWorld :=
  let item := entityUri itemId
  let room := entityUri roomId
  let ds :=
    (w.store.addTriple item mudVocab.location room none).addTriple
      room mudVocab.contains item none
  { w with store := ds }

/-- Source `createPlayer(name, startingRoomId)`: allocates an id and inserts
the type, name and location triples. -/
def MudWorld.createPlayer (w : MudWorld) (playerName startingRoomId : String) :
    String × MudWorld :=
  let (id, w1) := w.generateId "player"
  let player := entityUri id
  let ds := ((w1.store.addTriple player rdfType mudVocab.Player none).addTriple
      player mudVocab.name (createLiteral playerName) none).addTriple
      player mudVocab.location (entityUri startingRoomId) none
  (id, { w1 with store := ds })

/-- Source `getRoomName(roomId)`: first mud:name object's value, else null. -/
def MudWorld.getRoomName (w : MudWorld) (roomId : String) : Option String :=
  match w.store.getObjects (entityUri roomId) mudVocab.name none with
  | [] => none
  | t :: _ => some t.value

/-- Source `getRoomDescription(roomId)`: first mud:description object's
value, else null. -/
def MudWorld.getRoomDescription (w : MudWorld) (roomId : String) : Option String :=
  match w.store.getObjects (entityUri roomId) mudVocab.description none with
  | [] => none
  | t :: _ => some t.value

/-- Source `getRoomExits(roomId)`: for each of the six directions in order,
if the room has an exit triple through that direction's predicate, map the
direction to the last URI segment of the first target. -/
def MudWorld.getRoomExits (w : MudWorld) (roomId : String) :
    List (String × String) :=
  exitDirections.foldl
    (fun exits d =>
      match w.store.getObjects (entityUri roomId) (mudTerm d) none with
      | [] => exits
      | t :: _ => exits ++ [(d, segLast t.value)])
    []

/-- Source `getRoomItems(roomId)`: last URI segments of the room's
mud:contains objects, in store order. -/
def MudWorld.getRoomItems (w : MudWorld) (roomId : String) : List String :=
  (w.store.getObjects (entityUri roomId) mudVocab.contains none).map
    (fun t => segLast t.value)

/-- Source `getItemName(itemId)`: first mud:name object's value, else null. -/
def MudWorld.getItemName (w : MudWorld) (itemId : String) : Option String :=
  match w.store.getObjects (entityUri itemId) mudVocab.name none with
  | [] => none
  | t :: _ => some t.value

/-- Source `getItemDescription(itemId)`: first mud:description object's
value, else null. -/
def MudWorld.getItemDescription (w : MudWorld) (itemId : String) : Option String :=
  match w.store.getObjects (entityUri itemId) mudVocab.description none with
  | [] => none
  | t :: _ => some t.value

/-- Source `isItemPortable(itemId)`: `portable.length > 0 &&
portable[0].value === 'true'` — false both when the first matching literal
is not "true" and when no triple matches at all. -/
def MudWorld.isItemPortable (w : MudWorld) (itemId : String) : Bool :=
  match w.store.getObjects (entityUri itemId) mudVocab.portable none with
  | [] => false
  | t :: _ => t.value = "true"

/-- Source `getPlayerLocation(playerId)`: last URI segment of the first
mud:location object (`|| null` turns an empty segment into null), else null. -/
def MudWorld.getPlayerLocation (w : MudWorld) (playerId : String) : Option String :=
  match w.store.getObjects (entityUri playerId) mudVocab.location none with
  | [] => none
  | t :: _ => segLastOrNull t.value

/-- Source `movePlayer(playerId, roomId)`: removes one triple per object of
the player's current mud:location query, then inserts the new location. -/
def MudWorld.movePlayer (w : MudWorld) (playerId roomId : String) : MudWorld :=
  let player := entityUri playerId
  let oldLocations := w.store.getObjects player mudVocab.location none
  let ds1 := oldLocations.foldl
    (fun ds oldLocation => ds.removeTriple player mudVocab.location oldLocation none)
    w.store
  { w with store := ds1.addTriple player mudVocab.location (entityUri roomId) none }

/-- Source `addToInventory(playerId, itemId)`: for each object of the
item's mud:location query removes the location triple and that holder's
mud:contains reverse triple, then inserts the player's mud:inventory triple
and the item's new mud:location triple. -/
def MudWorld.addToInventory (w : MudWorld) (playerId itemId : String) : MudWorld :=
  let player := entityUri playerId
  let item := entityUri itemId
  let locations := w.store.getObjects item mudVocab.location none
  let ds1 := locations.foldl
    (fun ds location =>
      (ds.removeTriple item mudVocab.location location none).removeTriple
        location mudVocab.contains item none)
    w.store
  let ds2 :=
    (ds1.addTriple player mudVocab.inventory item none).addTriple
      item mudVocab.location player none
  { w with store := ds2 }

/-- Source `removeFromInventory(playerId, itemId)`: removes the inventory
triple and the item's location triple pointing at the player. -/
def MudWorld.removeFromInventory (w : MudWorld) (playerId itemId : String) :
    MudWorld :=
  let player := entityUri playerId
  let item := entityUri itemId
  let ds :=
    (w.store.removeTriple player mudVocab.inventory item none).removeTriple
      item mudVocab.location player none
  { w with store := ds }

/-- Source `getPlayerInventory(playerId)`: last URI segments of the
player's mud:inventory objects, in store order. -/
def MudWorld.getPlayerInventory (w : MudWorld) (playerId : String) : List String :=
  (w.store.getObjects (entityUri playerId) mudVocab.inventory none).map
    (fun t => segLast t.value)

/-- Source `dropItem(playerId, itemId)`: returns unchanged when the player
has no location; otherwise removes from inventory and places the item in
the player's current room. -/
def MudWorld.dropItem (w : MudWorld) (playerId itemId : String) : MudWorld :=
  match w.getPlayerLocation playerId with
  | none => w
  | some roomId => (w.removeFromInventory playerId itemId).placeItem itemId roomId

/-- Splits a character list at every whitespace character (used to model
JavaScript `split(/\s+/)` on already-trimmed input, where the two agree
once empty segments are dropped). -/
def splitOnWs : List Char → List (List Char)
  | [] => [[]]
  | c :: cs =>
      let rest := splitOnWs cs
      if c.isWhitespace then [] :: rest
      else
        match rest with
        | [] => [[c]]
        | seg :: segs => (c :: seg) :: segs

/-- JavaScript `trimmed.split(/\s+/)` for trimmed strings: the
whitespace-separated tokens in order. -/
def splitWs (s : String) : List String :=
  ((splitOnWs s.toList).map List.asString).filter (fun t => t ≠ "")

/-- JavaScript `String.prototype.trim()`: strips leading and trailing
whitespace. -/
def jsTrim (s : String) : String :=
  (((s.toList.dropWhile Char.isWhitespace).reverse.dropWhile
    Char.isWhitespace).reverse).asString

/-- JavaScript `String.prototype.toLowerCase()` (ASCII range, which is all
the repository uses). -/
def jsToLower (s : String) : String :=
  (s.toList.map Char.toLower).asString

/-- JavaScript `haystack.includes(needle)`: substring containment. -/
def jsIncludes (haystack needle : String) : Bool :=
  decide (needle.toList <:+: haystack.toList)

/-- JavaScript `arr.join(' ')`. -/
def joinSpace (args : List String) : String :=
  String.intercalate " " args

/-- Result record of executing a command (`CommandResult` in
`CommandProcessor.ts`). -/
structure CommandResult where
  success : Bool
  message : String
deriving DecidableEq, Repr

/-- A registered command handler: canonical name, aliases, description and
the execute operation.  Handlers mutate the world, so execute returns the
result together with the updated world. -/
structure CommandSpec where
  name : String
  aliases : List String
  description : String
  execute : MudWorld → String → List String → CommandResult × MudWorld

/-- Source `processCommand(world, playerId, input)`: trim; fixed failure on
empty input; split on whitespace; case-insensitive lookup of the first
token in the registry (modelled as an association list with unique keys,
like the JS `Map`); unknown-command failure; otherwise the handler runs. -/
def processCommand (commands : List (String × CommandSpec)) (w : MudWorld)
    (playerId input : String) : CommandResult × MudWorld :=
  let trimmed := jsTrim input
  if trimmed = "" then
    ({ success := false, message := "Please enter a command." }, w)
  else
    let parts := splitWs trimmed
    let commandName := jsToLower (parts.headD "")
    let args := parts.tail
    match commands.lookup commandName with
    | none =>
        ({ success := false
           message := "Unknown command: " ++ commandName ++
             ". Type \x27help\x27 for a list of commands." }, w)
    | some c => c.execute w playerId args

/-- The item-search loop of `TakeCommand.execute` (and `DropCommand`): the
first id in the list whose item name, lowercased, contains the search
string (`itemName?.toLowerCase().includes(...)`, so a null name never
matches). -/
def findItemByName (w : MudWorld) (itemIds : List String) (searchName : String) :
    Option String :=
  itemIds.find? (fun iid =>
    match w.getItemName iid with
    | some n => jsIncludes (jsToLower n) searchName
    | none => false)

/-- Source `TakeCommand.execute(world, playerId, args)`: missing-argument
failure; nowhere failure; substring search of the joined lowercased args
against the names of the items in the current room; no-match failure;
non-portable failure (world untouched); otherwise `addToInventory` and a
success message. -/
def takeExecute (w : MudWorld) (playerId : String) (args : List String) :
    CommandResult × MudWorld :=
  if args.isEmpty then
    ({ success := false, message := "Take what? Please specify an item." }, w)
  else
    let searchName := jsToLower (joinSpace args)
    match w.getPlayerLocation playerId with
    | none => ({ success := false, message := "You are nowhere!" }, w)
    | some roomId =>
        match findItemByName w (w.getRoomItems roomId) searchName with
        | none =>
            ({ success := false
               message := "There is no \"" ++ joinSpace args ++ "\" here." }, w)
        | some foundItemId =>
            if !(w.isItemPortable foundItemId) then
              ({ success := false, message := "You can\x27t take that." }, w)
            else
              let itemName := w.getItemName foundItemId
              let w2 := w.addToInventory playerId foundItemId
              ({ success := true
                 message := "You take the " ++ itemName.getD "null" ++ "." }, w2)

/-- Concrete world for exercising `addToInventory`: one room, two players,
one portable item; Alice (player-2) has taken the item.  Generated ids:
room-1, player-2, player-3, item-4. -/
def wC1pre : MudWorld :=
  let w0 := MudWorld.init
  let (r1, w1) := w0.createRoom "Hall" "A hall."
  let (p1, w2) := w1.createPlayer "Alice" r1
  let (_p2, w3) := w2.createPlayer "Bob" r1
  let (i1, w4) := w3.createItem "tome" "A book." true
  w4.addToInventory p1 i1

/-- The world after Bob (player-3) takes the item out of Alice's hands. -/
def wC1 : MudWorld := wC1pre.addToInventory "player-3" "item-4"

/-- Concrete world with a single non-portable item (id item-1). -/
def wC3 : MudWorld :=
  (MudWorld.init.createItem "rock" "A heavy rock." false).2

/-- Concrete datastore holding one statement added with no explicit graph. -/
def dsC4 : RDFDatastore :=
  RDFDatastore.init.addTriple (createNamedNode "http://example.org/s")
    (createNamedNode "http://example.org/p") (createLiteral "v") none

/-- Concrete world for the take command: a room (room-1) holding a portable
item (item-2) and a non-portable item (item-3), and a player (player-4)
standing in the room. -/
def wC5 : MudWorld :=
  let w0 := MudWorld.init
  let (r1, w1) := w0.createRoom "Hall" "A hall."
  let (i1, w2) := w1.createItem "ancient tome" "A heavy book." true
  let (i2, w3) := w2.createItem "granite statue" "Far too heavy." false
  let w4 := (w3.placeItem i1 r1).placeItem i2 r1
  (w4.createPlayer "Alice" r1).2

/-- Concrete world for `movePlayer`: two rooms (room-1, room-2) and a
player (player-3) starting in room-1. -/
def wC6 : MudWorld :=
  let w0 := MudWorld.init
  let (r1, w1) := w0.createRoom "Hall" "A hall."
  let (_r2, w2) := w1.createRoom "Study" "A study."
  (w2.createPlayer "Alice" r1).2

/-- Concrete world refuting the universal reading of the connect-rooms
claim: room-1 is connected north to room-2 and then north to room-3. -/
def wC7 : MudWorld :=
  let w0 := MudWorld.init
  let (r1, w1) := w0.createRoom "A" "Room A."
  let (r2, w2) := w1.createRoom "B" "Room B."
  let (r3, w3) := w2.createRoom "C" "Room C."
  (w3.connectRooms r1 "north" r2).connectRooms r1 "north" r3

/-- Concrete world for the amended connect-rooms claim: two rooms, not yet
connected. -/
def wC7b : MudWorld :=
  let w0 := MudWorld.init
  let (_r1, w1) := w0.createRoom "A" "Room A."
  (w1.createRoom "B" "Room B.").2

/-- One direction's contribution to `getRoomExits`: the singleton entry
mapping the direction to the last URI segment of the first exit target, or
nothing when the room has no exit triple through that direction. -/
def exitEntry (w : MudWorld) (roomId : String) (d : String) :
    List (String × String) :=
  match w.store.getObjects (entityUri roomId) (mudTerm d) none with
  | [] => []
  | t :: _ => [(d, segLast t.value)]

/-- A just-inserted quad is in the store. -/
theorem RDFDatastore.mem_addQuad_self (ds : RDFDatastore) (q : Quad) :
    q ∈ (ds.addQuad q).store := by
  unfold RDFDatastore.addQuad
  by_cases h : q ∈ ds.store
  · simp [h]
  · simp [h]

/-- Inserting an already-present quad is a no-op. -/
theorem RDFDatastore.addQuad_eq_of_mem (ds : RDFDatastore) (q : Quad)
    (h : q ∈ ds.store) : ds.addQuad q = ds := by
  simp [RDFDatastore.addQuad, h]

/-- Membership after an insert. -/
theorem RDFDatastore.mem_addQuad_iff (ds : RDFDatastore) (q q' : Quad) :
    q ∈ (ds.addQuad q').store ↔ q ∈ ds.store ∨ q = q' := by
  unfold RDFDatastore.addQuad
  by_cases h : q' ∈ ds.store
  · simp only [if_pos h]
    constructor
    · exact Or.inl
    · rintro (hq | rfl)
      · exact hq
      · exact h
  · simp [h]

/-- Membership in a fold that filters the store once per element of a list:
the quad survives iff it was there and passes every step's filter. -/
theorem mem_foldl_filter {α : Type} (f : α → Quad → Bool) (os : List α)
    (store : List Quad) (q : Quad) :
    q ∈ os.foldl (fun st o => st.filter (f o)) store ↔
      q ∈ store ∧ ∀ o ∈ os, f o q = true := by
  induction os generalizing store with
  | nil => simp
  | cons o os ih =>
      simp [List.foldl_cons, ih, List.mem_filter, List.forall_mem_cons, and_assoc]

/-- The store component of `movePlayer`'s removal loop, expressed as a
store-level filter fold. -/
theorem foldl_removeTriple_store (s p : Term) (os : List Term) (ds : RDFDatastore) :
    (os.foldl (fun d o => d.removeTriple s p o none) ds).store =
      os.foldl (fun st o => st.filter (fun q => q ≠ mkQuad s p o none)) ds.store := by
  induction os generalizing ds with
  | nil => rfl
  | cons o os ih =>
      rw [List.foldl_cons, List.foldl_cons, ih]
      rfl

/-- The store component of `addToInventory`'s removal loop (two removals
per previous location), expressed as a store-level filter fold. -/
theorem foldl_removePair_store (item : Term) (os : List Term) (ds : RDFDatastore) :
    (os.foldl
        (fun d o => (d.removeTriple item mudVocab.location o none).removeTriple
          o mudVocab.contains item none) ds).store =
      os.foldl
        (fun st o => (st.filter (fun q => q ≠ mkQuad item mudVocab.location o none)).filter
          (fun q => q ≠ mkQuad o mudVocab.contains item none)) ds.store := by
  induction os generalizing ds with
  | nil => rfl
  | cons o os ih =>
      rw [List.foldl_cons, List.foldl_cons, ih]
      rfl

/-- Unfolds a subject-predicate query to a filter and map on the store. -/
theorem getObjects_def (ds : RDFDatastore) (s p : Term) :
    ds.getObjects s p none =
      (ds.store.filter (fun q => q.subject = s ∧ q.predicate = p)).map
        (fun q => q.object) := by
  unfold RDFDatastore.getObjects RDFDatastore.matchQuads
  congr 1
  apply List.filter_congr
  intro q _
  simp [quadMatches, fieldMatches]

/-- The object of a matching quad appears in the query result. -/
theorem mem_getObjects_of_mem {ds : RDFDatastore} {s p : Term} {q : Quad}
    (hq : q ∈ ds.store) (hs : q.subject = s) (hp : q.predicate = p) :
    q.object ∈ ds.getObjects s p none := by
  rw [getObjects_def]
  exact List.mem_map_of_mem _ (List.mem_filter.2 ⟨hq, by simp [hs, hp]⟩)

/-- Rebuilds a quad with default graph from its components. -/
theorem quad_eq_mkQuad {q : Quad} {s p : Term} (hs : q.subject = s)
    (hp : q.predicate = p) (hgr : q.graph = Term.defaultGraph) :
    q = mkQuad s p q.object none := by
  cases q
  simp_all [mkQuad]

/-- C9: adding a statement is idempotent — performing `add` twice yields
the same store as performing it once, and in particular `size()` is
unchanged by the second add; `has` is true immediately after `add` and
false immediately after `remove`. -/
theorem c9_add_idempotent_has_remove (ds : RDFDatastore) (s p o : Term)
    (g : Option Term) :
    (ds.addTriple s p o g).addTriple s p o g = ds.addTriple s p o g ∧
    ((ds.addTriple s p o g).addTriple s p o g).size = (ds.addTriple s p o g).size ∧
    (ds.addTriple s p o g).hasTriple s p o g = true ∧
    (ds.removeTriple s p o g).hasTriple s p o g = false := by
  have hidem : (ds.addTriple s p o g).addTriple s p o g = ds.addTriple s p o g :=
    RDFDatastore.addQuad_eq_of_mem _ _ (RDFDatastore.mem_addQuad_self ds (mkQuad s p o g))
  refine ⟨hidem, by rw [hidem], ?_, ?_⟩
  · have h := RDFDatastore.mem_addQuad_self ds (mkQuad s p o g)
    simpa [RDFDatastore.hasTriple, RDFDatastore.addTriple] using h
  · simp [RDFDatastore.hasTriple, RDFDatastore.removeTriple, List.mem_filter]

/-- C10: when the player has no location triple, `dropItem` is a complete
no-op — the world (hence the store) is unchanged and the item stays in the
player's inventory. -/
theorem c10_dropItem_noop (w : MudWorld) (playerId itemId : String)
    (h : w.store.getObjects (entityUri playerId) mudVocab.location none = []) :
    w.dropItem playerId itemId = w ∧
    (w.dropItem playerId itemId).getPlayerInventory playerId =
      w.getPlayerInventory playerId := by
  have hnoop : w.dropItem playerId itemId = w := by
    simp [MudWorld.dropItem, MudWorld.getPlayerLocation, h]
  exact ⟨hnoop, by rw [hnoop]⟩

/-- Closed instance of `c10_dropItem_noop` at the empty world. -/
theorem c10_dropItem_noop_witness :
    MudWorld.init.dropItem "player-1" "item-2" = MudWorld.init ∧
    (MudWorld.init.dropItem "player-1" "item-2").getPlayerInventory "player-1" =
      MudWorld.init.getPlayerInventory "player-1" :=
  c10_dropItem_noop MudWorld.init "player-1" "item-2" (by decide)

/-- C8: dispatching an empty or whitespace-only command string returns a
failure with the fixed message, for every registry (so no registered
handler runs), and returns the world unchanged. -/
theorem c8_empty_command (commands : List (String × CommandSpec)) (w : MudWorld)
    (playerId input : String) (h : jsTrim input = "") :
    processCommand commands w playerId input =
      ({ success := false, message := "Please enter a command." }, w) := by
  simp [processCommand, h]

/-- Closed instance of `c8_empty_command` on a whitespace-only input with
an empty registry. -/
theorem c8_empty_command_witness :
    processCommand [] MudWorld.init "player-1" "  \t " =
      ({ success := false, message := "Please enter a command." }, MudWorld.init) :=
  c8_empty_command [] MudWorld.init "player-1" "  \t " (by decide)

/-- C2: `parseFromString` has buffer-then-commit semantics — whenever the
parser reports a syntax error (after any number of decoded statements) the
store and its prefix table are returned exactly as they were, and on
successful completion all decoded statements and declared prefixes are
merged. -/
theorem c2_parse_buffer_then_commit (ds : RDFDatastore) (qs : List Quad)
    (e : String) (declared : List (String × String)) :
    ds.parseFromString (qs.map ParseEvent.emitQuad ++ [ParseEvent.emitError e]) =
      (ds, some e) ∧
    ds.parseFromString (qs.map ParseEvent.emitQuad ++ [ParseEvent.emitEnd declared]) =
      (ds.commitParse qs declared, none) := by
  have hbuf : ∀ (buffered : List Quad) (rest : List ParseEvent) (qs : List Quad),
      runParse ds buffered (qs.map ParseEvent.emitQuad ++ rest) =
        runParse ds (buffered ++ qs) rest := by
    intro buffered rest qs
    induction qs generalizing buffered with
    | nil => simp
    | cons q qs ih =>
        rw [List.map_cons, List.cons_append, runParse, ih]
        simp
  constructor
  · rw [RDFDatastore.parseFromString, hbuf]
    rfl
  · rw [RDFDatastore.parseFromString, hbuf]
    simp [runParse]

/-- C4 (code bug): on the store holding a single statement added without an
explicit graph, `getStats` reports `graphCount = 1`, because the
`if (quad.graph)` guard is true even for the default graph, whose empty
value string is then counted — the spec requires 0 when no statement has
an explicitly set graph. -/
theorem c4_getStats_counts_default_graph :
    dsC4.getStats = DatastoreStats.mk 1 1 1 1 ∧
    ∀ q ∈ dsC4.store, q.graph = Term.defaultGraph := by
  constructor
  · decide
  · decide

/-- C3 counterexample: in `wC3`, the id `item-2` has no mud:portable triple
at all, yet `isItemPortable` returns the plain boolean `false` — exactly
the value it also returns for `item-1`, which does carry an explicit
`portable "false"` triple.  The miss result therefore coincides with a
valid domain value instead of being a distinguishable not-found sentinel,
refuting the claim for `isItemPortable`. -/
theorem c3_isItemPortable_not_sentinel :
    wC3.store.getObjects (entityUri "item-2") mudVocab.portable none = [] ∧
    wC3.isItemPortable "item-2" = false ∧
    wC3.store.getObjects (entityUri "item-1") mudVocab.portable none ≠ [] ∧
    wC3.isItemPortable "item-1" = false := by
  refine ⟨by decide, by decide, by decide, by decide⟩

/-- C3 (amended): when its single pattern query returns no triple, each of
the five nullable getters returns null, while `isItemPortable` returns the
plain boolean `false` (indistinguishable from a non-portable item). -/
theorem c3_getters_miss_results (w : MudWorld) (id : String) :
    (w.store.getObjects (entityUri id) mudVocab.name none = [] →
      w.getRoomName id = none ∧ w.getItemName id = none) ∧
    (w.store.getObjects (entityUri id) mudVocab.description none = [] →
      w.getRoomDescription id = none ∧ w.getItemDescription id = none) ∧
    (w.store.getObjects (entityUri id) mudVocab.location none = [] →
      w.getPlayerLocation id = none) ∧
    (w.store.getObjects (entityUri id) mudVocab.portable none = [] →
      w.isItemPortable id = false) := by
  refine ⟨fun h => ?_, fun h => ?_, fun h => ?_, fun h => ?_⟩
  · exact ⟨by simp [MudWorld.getRoomName, h], by simp [MudWorld.getItemName, h]⟩
  · exact ⟨by simp [MudWorld.getRoomDescription, h],
      by simp [MudWorld.getItemDescription, h]⟩
  · simp [MudWorld.getPlayerLocation, h]
  · simp [MudWorld.isItemPortable, h]

/-- Closed instance of `c3_getters_miss_results` at `wC3` and the unused
id `item-2`. -/
theorem c3_getters_miss_results_witness :
    wC3.getRoomName "item-2" = none ∧ wC3.getItemName "item-2" = none ∧
    wC3.getRoomDescription "item-2" = none ∧ wC3.getItemDescription "item-2" = none ∧
    wC3.getPlayerLocation "item-2" = none ∧ wC3.isItemPortable "item-2" = false := by
  have h := c3_getters_miss_results wC3 "item-2"
  exact ⟨(h.1 (by decide)).1, (h.1 (by decide)).2, (h.2.1 (by decide)).1,
    (h.2.1 (by decide)).2, h.2.2.1 (by decide), h.2.2.2 (by decide)⟩

/-- C6: `movePlayer` removes every existing location triple of the player
(however many stale ones exist) and inserts exactly one new location
triple, so afterwards the location query returns exactly the new room and
`getPlayerLocation` returns the room id.  The hypotheses say that the
world's quads live in the default graph (true of every world built through
the MudWorld API, which never passes a graph) and that the room id is
recoverable as the last URI segment of its entity URI and nonempty (true
of every generated id). -/
theorem c6_movePlayer_unique_location (w : MudWorld) (playerId roomId : String)
    (hg : ∀ q ∈ w.store.store, q.graph = Term.defaultGraph)
    (hid : segLast ("http://example.org/game/" ++ roomId) = roomId)
    (hne : roomId ≠ "") :
    (w.movePlayer playerId roomId).store.getObjects (entityUri playerId)
      mudVocab.location none = [entityUri roomId] ∧
    (w.movePlayer playerId roomId).getPlayerLocation playerId = some roomId := by
  set os := w.store.getObjects (entityUri playerId) mudVocab.location none with hos
  set ds1 := os.foldl
    (fun d o => d.removeTriple (entityUri playerId) mudVocab.location o none)
    w.store with hds1
  have hw' : (w.movePlayer playerId roomId).store =
      ds1.addTriple (entityUri playerId) mudVocab.location (entityUri roomId) none :=
    rfl
  have hclean : ∀ q ∈ ds1.store,
      ¬(q.subject = entityUri playerId ∧ q.predicate = mudVocab.location) := by
    intro q hqmem hsp
    rw [hds1, foldl_removeTriple_store] at hqmem
    obtain ⟨hq, hall⟩ := (mem_foldl_filter _ os w.store.store q).1 hqmem
    have hgr := hg q hq
    have hobj : q.object ∈ os := by
      rw [hos]
      exact mem_getObjects_of_mem hq hsp.1 hsp.2
    have hne' := hall q.object hobj
    have hqeq : q = mkQuad (entityUri playerId) mudVocab.location q.object none :=
      quad_eq_mkQuad hsp.1 hsp.2 hgr
    simp [← hqeq] at hne'
  have hnotmem :
      mkQuad (entityUri playerId) mudVocab.location (entityUri roomId) none ∉
        ds1.store := by
    intro hmem
    exact hclean _ hmem ⟨rfl, rfl⟩
  have hstore : (w.movePlayer playerId roomId).store.store =
      ds1.store ++ [mkQuad (entityUri playerId) mudVocab.location
        (entityUri roomId) none] := by
    rw [hw']
    simp [RDFDatastore.addTriple, RDFDatastore.addQuad, hnotmem]
  have hobjs : (w.movePlayer playerId roomId).store.getObjects (entityUri playerId)
      mudVocab.location none = [entityUri roomId] := by
    rw [getObjects_def, hstore, List.filter_append]
    have h1 : ds1.store.filter
        (fun q => q.subject = entityUri playerId ∧ q.predicate = mudVocab.location) =
          [] := by
      rw [List.filter_eq_nil_iff]
      intro q hq
      have := hclean q hq
      simpa using this
    rw [h1]
    simp [mkQuad]
  refine ⟨hobjs, ?_⟩
  rw [MudWorld.getPlayerLocation, hobjs]
  simp [segLastOrNull, entityUri, createNamedNode, Term.value, hid, hne]

/-- Closed instance of `c6_movePlayer_unique_location`: moving player-3
from room-1 to room-2 in `wC6`. -/
theorem c6_movePlayer_unique_location_witness :
    (wC6.movePlayer "player-3" "room-2").store.getObjects (entityUri "player-3")
      mudVocab.location none = [entityUri "room-2"] ∧
    (wC6.movePlayer "player-3" "room-2").getPlayerLocation "player-3" =
      some "room-2" :=
  c6_movePlayer_unique_location wC6 "player-3" "room-2" (by decide) (by decide)
    (by decide)

/-- Store contents after inserting a fresh quad. -/
theorem RDFDatastore.addQuad_store_of_not_mem (ds : RDFDatastore) (q : Quad)
    (h : q ∉ ds.store) : (ds.addQuad q).store = ds.store ++ [q] := by
  simp [RDFDatastore.addQuad, h]

/-- Quads built with different predicates are different. -/
theorem mkQuad_ne_of_pred_ne {s1 p1 o1 s2 p2 o2 : Term} {g1 g2 : Option Term}
    (h : p1 ≠ p2) : mkQuad s1 p1 o1 g1 ≠ mkQuad s2 p2 o2 g2 := by
  intro he
  exact h (congrArg Quad.predicate he)

/-- C1 counterexample: in `wC1pre` the item's only location triple points
at its previous holder player-2, a player; after
`addToInventory("player-3", "item-4")` the previous holder player-2 still
retains its holder-side reverse (mud:inventory) triple pointing at the
item — the code only ever removes mud:contains reverse triples — refuting
the claim that no previous holder retains a reverse triple. -/
theorem c1_previous_player_holder_keeps_reverse_triple :
    wC1pre.store.getObjects (entityUri "item-4") mudVocab.location none =
      [entityUri "player-2"] ∧
    wC1.store.hasTriple (entityUri "player-2") mudVocab.inventory
      (entityUri "item-4") none = true ∧
    wC1.getPlayerInventory "player-2" = ["item-4"] ∧
    wC1.store.getObjects (entityUri "item-4") mudVocab.location none =
      [entityUri "player-3"] := by
  refine ⟨by decide, by decide, by decide, by decide⟩

/-- Full characterization of `addToInventory(playerId, itemId)` on
default-graph worlds: the inventory triple is inserted, the item ends with
exactly one location triple (to the player), every previous holder's
mud:contains reverse triple is removed, no mud:inventory triple is ever
removed, and every quad of the result was already present or is one of the
two inserted quads. -/
theorem addToInventory_spec (w : MudWorld) (playerId itemId : String)
    (hg : ∀ q ∈ w.store.store, q.graph = Term.defaultGraph) :
    mkQuad (entityUri playerId) mudVocab.inventory (entityUri itemId) none ∈
      (w.addToInventory playerId itemId).store.store ∧
    (w.addToInventory playerId itemId).store.getObjects (entityUri itemId)
      mudVocab.location none = [entityUri playerId] ∧
    (∀ L ∈ w.store.getObjects (entityUri itemId) mudVocab.location none,
      mkQuad L mudVocab.contains (entityUri itemId) none ∉
        (w.addToInventory playerId itemId).store.store) ∧
    (∀ q ∈ w.store.store, q.predicate = mudVocab.inventory →
      q ∈ (w.addToInventory playerId itemId).store.store) ∧
    (∀ q ∈ (w.addToInventory playerId itemId).store.store,
      q ∈ w.store.store ∨
      q = mkQuad (entityUri playerId) mudVocab.inventory (entityUri itemId) none ∨
      q = mkQuad (entityUri itemId) mudVocab.location (entityUri playerId) none) := by
  have hne_loc_con : mudVocab.location ≠ mudVocab.contains := by decide
  have hne_inv_con : mudVocab.inventory ≠ mudVocab.contains := by decide
  have hne_inv_loc : mudVocab.inventory ≠ mudVocab.location := by decide
  set os := w.store.getObjects (entityUri itemId) mudVocab.location none with hos
  set ds1 := os.foldl
    (fun d o => (d.removeTriple (entityUri itemId) mudVocab.location o
      none).removeTriple o mudVocab.contains (entityUri itemId) none)
    w.store with hds1
  set invQuad := mkQuad (entityUri playerId) mudVocab.inventory (entityUri itemId)
    none with hinvq
  set locQuad := mkQuad (entityUri itemId) mudVocab.location (entityUri playerId)
    none with hlocq
  have hw' : (w.addToInventory playerId itemId).store =
      (ds1.addQuad invQuad).addQuad locQuad := rfl
  have hds1_store : ds1.store = os.foldl
      (fun st o =>
        (st.filter (fun q => q ≠ mkQuad (entityUri itemId) mudVocab.location o
          none)).filter
          (fun q => q ≠ mkQuad o mudVocab.contains (entityUri itemId) none))
      w.store.store := by
    rw [hds1, foldl_removePair_store]
  have hstep : ∀ q : Quad, q ∈ ds1.store ↔ q ∈ w.store.store ∧ ∀ o ∈ os,
      q ≠ mkQuad (entityUri itemId) mudVocab.location o none ∧
      q ≠ mkQuad o mudVocab.contains (entityUri itemId) none := by
    intro q
    rw [hds1_store]
    have hff : (fun (st : List Quad) (o : Term) =>
        (st.filter (fun q => q ≠ mkQuad (entityUri itemId) mudVocab.location o
          none)).filter
          (fun q => q ≠ mkQuad o mudVocab.contains (entityUri itemId) none)) =
        (fun (st : List Quad) (o : Term) => st.filter
          (fun q => decide (q ≠ mkQuad o mudVocab.contains (entityUri itemId) none)
            && decide (q ≠ mkQuad (entityUri itemId) mudVocab.location o none))) := by
      funext st o
      rw [List.filter_filter]
    rw [hff, mem_foldl_filter]
    constructor
    · rintro ⟨hq, hall⟩
      refine ⟨hq, fun o ho => ?_⟩
      have h := hall o ho
      simp only [Bool.and_eq_true, decide_eq_true_eq] at h
      exact ⟨h.2, h.1⟩
    · rintro ⟨hq, hall⟩
      refine ⟨hq, fun o ho => ?_⟩
      have h := hall o ho
      simp only [Bool.and_eq_true, decide_eq_true_eq]
      exact ⟨h.2, h.1⟩
  have hclean : ∀ q ∈ ds1.store,
      ¬(q.subject = entityUri itemId ∧ q.predicate = mudVocab.location) := by
    intro q hqmem hsp
    obtain ⟨hq, hall⟩ := (hstep q).1 hqmem
    have hobj : q.object ∈ os := by
      rw [hos]
      exact mem_getObjects_of_mem hq hsp.1 hsp.2
    have hqeq : q = mkQuad (entityUri itemId) mudVocab.location q.object none :=
      quad_eq_mkQuad hsp.1 hsp.2 (hg q hq)
    exact (hall q.object hobj).1 hqeq
  have hlocnot : locQuad ∉ ds1.store := by
    intro hmem
    exact hclean _ hmem ⟨rfl, rfl⟩
  have hlocnot2 : locQuad ∉ (ds1.addQuad invQuad).store := by
    intro hmem
    rcases (RDFDatastore.mem_addQuad_iff ds1 locQuad invQuad).1 hmem with h | h
    · exact hlocnot h
    · exact mkQuad_ne_of_pred_ne (fun he => hne_inv_loc he.symm) h
  have hstore : (w.addToInventory playerId itemId).store.store =
      (ds1.addQuad invQuad).store ++ [locQuad] := by
    rw [hw', RDFDatastore.addQuad_store_of_not_mem _ _ hlocnot2]
  refine ⟨?_, ?_, ?_, ?_, ?_⟩
  · rw [hstore]
    exact List.mem_append_left _ (RDFDatastore.mem_addQuad_self ds1 invQuad)
  · rw [getObjects_def, hstore, List.filter_append]
    have h1 : ((ds1.addQuad invQuad).store).filter
        (fun q => q.subject = entityUri itemId ∧ q.predicate = mudVocab.location) =
          [] := by
      rw [List.filter_eq_nil_iff]
      intro q hq
      rcases (RDFDatastore.mem_addQuad_iff ds1 q invQuad).1 hq with h | h
      · have := hclean q h
        simpa using this
      · subst h
        simp [hinvq, mkQuad]
        intro hsub
        exact fun hpred => hne_inv_loc hpred
    rw [h1]
    simp [hlocq, mkQuad]
  · intro L hL hmem
    rw [hstore] at hmem
    rcases List.mem_append.1 hmem with h | h
    · rcases (RDFDatastore.mem_addQuad_iff ds1 _ invQuad).1 h with h2 | h2
      · obtain ⟨_, hall⟩ := (hstep _).1 h2
        exact (hall L hL).2 rfl
      · rw [hinvq] at h2
        exact mkQuad_ne_of_pred_ne (fun he => hne_inv_con he.symm) h2
    · have h2 : mkQuad L mudVocab.contains (entityUri itemId) none = locQuad := by
        simpa using h
      rw [hlocq] at h2
      exact mkQuad_ne_of_pred_ne (fun he => hne_loc_con he.symm) h2
  · intro q hq hpred
    have hq1 : q ∈ ds1.store := by
      rw [hstep]
      refine ⟨hq, fun o ho => ⟨?_, ?_⟩⟩
      · intro he
        have h3 : q.predicate =
            (mkQuad (entityUri itemId) mudVocab.location o none).predicate :=
          congrArg Quad.predicate he
        rw [hpred] at h3
        exact hne_inv_loc h3
      · intro he
        have h3 : q.predicate =
            (mkQuad o mudVocab.contains (entityUri itemId) none).predicate :=
          congrArg Quad.predicate he
        rw [hpred] at h3
        exact hne_inv_con h3
    rw [hstore]
    refine List.mem_append_left _ ?_
    rcases (RDFDatastore.mem_addQuad_iff ds1 q invQuad).2 (Or.inl hq1) with h
    exact h
  · intro q hq
    rw [hstore] at hq
    rcases List.mem_append.1 hq with h | h
    · rcases (RDFDatastore.mem_addQuad_iff ds1 q invQuad).1 h with h2 | h2
      · exact Or.inl ((hstep q).1 h2).1
      · exact Or.inr (Or.inl h2)
    · have h2 : q = locQuad := by simpa using h
      exact Or.inr (Or.inr h2)

/-- C1 (amended): `addToInventory(playerId, itemId)` removes every existing
location triple of the item and, for each previous holder, that holder's
mud:contains reverse triple (whether the holder was a room or a player),
then inserts the inventory triple and exactly one location triple
(item → player).  A previous player holder's mud:inventory reverse triple
is NOT removed: no mud:inventory triple is ever removed by the call.  The
hypothesis restricts to default-graph worlds, which covers every world
built through the MudWorld API. -/
theorem c1_addToInventory_amended (w : MudWorld) (playerId itemId : String)
    (hg : ∀ q ∈ w.store.store, q.graph = Term.defaultGraph) :
    mkQuad (entityUri playerId) mudVocab.inventory (entityUri itemId) none ∈
      (w.addToInventory playerId itemId).store.store ∧
    (w.addToInventory playerId itemId).store.getObjects (entityUri itemId)
      mudVocab.location none = [entityUri playerId] ∧
    (∀ L ∈ w.store.getObjects (entityUri itemId) mudVocab.location none,
      mkQuad L mudVocab.contains (entityUri itemId) none ∉
        (w.addToInventory playerId itemId).store.store) ∧
    (∀ q ∈ w.store.store, q.predicate = mudVocab.inventory →
      q ∈ (w.addToInventory playerId itemId).store.store) := by
  obtain ⟨h1, h2, h3, h4, _⟩ := addToInventory_spec w playerId itemId hg
  exact ⟨h1, h2, h3, h4⟩

/-- Closed instance of `c1_addToInventory_amended` at `wC1pre`: Bob takes
the item Alice holds; Alice's mud:contains reverse triple (none exists —
she is a player, so the previous-holder entry checked is player-2) is
absent, the item has exactly one location triple, and Alice's
mud:inventory triple survives, all evaluated concretely. -/
theorem c1_addToInventory_amended_witness :
    mkQuad (entityUri "player-3") mudVocab.inventory (entityUri "item-4") none ∈
      wC1.store.store ∧
    wC1.store.getObjects (entityUri "item-4") mudVocab.location none =
      [entityUri "player-3"] ∧
    mkQuad (entityUri "player-2") mudVocab.contains (entityUri "item-4") none ∉
      wC1.store.store ∧
    mkQuad (entityUri "player-2") mudVocab.inventory (entityUri "item-4") none ∈
      wC1.store.store := by
  have h := c1_addToInventory_amended wC1pre "player-3" "item-4" (by decide)
  refine ⟨h.1, h.2.1, ?_, ?_⟩
  · exact h.2.2.1 (entityUri "player-2") (by decide)
  · exact h.2.2.2 (mkQuad (entityUri "player-2") mudVocab.inventory
      (entityUri "item-4") none) (by decide) rfl

/-- Every entry contributed by a direction carries that direction as key. -/
theorem exitEntry_key (w : MudWorld) (roomId d : String) :
    ∀ x ∈ exitEntry w roomId d, x.1 = d := by
  intro x hx
  unfold exitEntry at hx
  split at hx
  · simp at hx
  · rw [List.mem_singleton] at hx
    rw [hx]

/-- The room-exits map is the concatenation of the six directions'
contributions, in direction order. -/
theorem getRoomExits_eq_bind (w : MudWorld) (roomId : String) :
    w.getRoomExits roomId = exitDirections.flatMap (exitEntry w roomId) := by
  have hfold : ∀ (dirs : List String) (acc : List (String × String)),
      dirs.foldl
        (fun exits d =>
          match w.store.getObjects (entityUri roomId) (mudTerm d) none with
          | [] => exits
          | t :: _ => exits ++ [(d, segLast t.value)])
        acc = acc ++ dirs.flatMap (exitEntry w roomId) := by
    intro dirs
    induction dirs with
    | nil => intro acc; simp
    | cons d dirs ih =>
        intro acc
        rw [List.foldl_cons, List.flatMap_cons]
        have hstep : (match w.store.getObjects (entityUri roomId) (mudTerm d) none
            with
          | [] => acc
          | t :: _ => acc ++ [(d, segLast t.value)]) =
            acc ++ exitEntry w roomId d := by
          unfold exitEntry
          cases w.store.getObjects (entityUri roomId) (mudTerm d) none with
          | nil => simp
          | cons t ts => simp
        rw [hstep, ih, List.append_assoc]
  exact hfold exitDirections []

/-- Lookup misses an association list when no entry carries the key. -/
theorem lookup_eq_none_of_forall {β : Type} (l : List (String × β)) (k : String)
    (h : ∀ x ∈ l, x.1 ≠ k) : l.lookup k = none := by
  induction l with
  | nil => rfl
  | cons x xs ih =>
      cases x with
      | mk k' v =>
          have hx : k' ≠ k := h (k', v) (by simp)
          have hbeq : (k == k') = false := beq_eq_false_iff_ne.mpr (Ne.symm hx)
          simp only [List.lookup, hbeq]
          exact ih (fun y hy => h y (List.mem_cons_of_mem _ hy))

/-- C7 counterexample: in `wC7`, room-1 was first connected north to
room-2 and then `connectRooms("room-1", "north", "room-3")` was called;
afterwards `getRoomExits("room-1")` still maps north to room-2 (the first
matching triple in store order), not to room-3 — refuting the claim's
universally quantified first half for A = room-1, B = room-3. -/
theorem c7_second_north_exit_not_reported :
    (wC7.getRoomExits "room-1").lookup "north" = some "room-2" ∧
    (wC7.getRoomExits "room-1").lookup "north" ≠ some "room-3" := by
  refine ⟨by decide, by decide⟩

/-- C7 (amended): when room A has no prior north exit triple, after
`connectRooms(A, "north", B)` the exits map of A contains north → B; and
this alone never creates a south entry for B — when B had no south exit
triple before the call, its exits map still has none afterwards.  The
segment hypothesis says B's id is recoverable from its entity URI, true of
every generated id. -/
theorem c7_connectRooms_one_directional (w : MudWorld) (a b : String)
    (h1 : w.store.getObjects (entityUri a) (mudTerm "north") none = [])
    (h2 : segLast ("http://example.org/game/" ++ b) = b)
    (h3 : w.store.getObjects (entityUri b) (mudTerm "south") none = []) :
    ((w.connectRooms a "north" b).getRoomExits a).lookup "north" = some b ∧
    ((w.connectRooms a "north" b).getRoomExits b).lookup "south" = none := by
  have hns : mudTerm "north" ≠ mudTerm "south" := by decide
  set nq := mkQuad (entityUri a) (mudTerm "north") (entityUri b) none with hnq
  have hnotmem : nq ∉ w.store.store := by
    intro hm
    have hobj : nq.object ∈ w.store.getObjects (entityUri a) (mudTerm "north")
        none := mem_getObjects_of_mem hm rfl rfl
    rw [h1] at hobj
    exact absurd hobj (List.not_mem_nil _)
  have hstore : (w.connectRooms a "north" b).store.store =
      w.store.store ++ [nq] := by
    have hconn : (w.connectRooms a "north" b).store =
        w.store.addTriple (entityUri a) (mudTerm "north") (entityUri b) none := rfl
    rw [hconn, RDFDatastore.addTriple, RDFDatastore.addQuad_store_of_not_mem _ _
      hnotmem]
  have hfilter1 : w.store.store.filter
      (fun q => q.subject = entityUri a ∧ q.predicate = mudTerm "north") = [] := by
    rw [getObjects_def] at h1
    exact List.map_eq_nil_iff.mp h1
  have hobjsA : (w.connectRooms a "north" b).store.getObjects (entityUri a)
      (mudTerm "north") none = [entityUri b] := by
    rw [getObjects_def, hstore, List.filter_append, hfilter1]
    simp [hnq, mkQuad]
  have hfilter3 : w.store.store.filter
      (fun q => q.subject = entityUri b ∧ q.predicate = mudTerm "south") = [] := by
    rw [getObjects_def] at h3
    exact List.map_eq_nil_iff.mp h3
  have hobjsB : (w.connectRooms a "north" b).store.getObjects (entityUri b)
      (mudTerm "south") none = [] := by
    rw [getObjects_def, hstore, List.filter_append, hfilter3]
    simp [hnq, mkQuad, hns]
  constructor
  · rw [getRoomExits_eq_bind]
    have hdirs : exitDirections =
        "north" :: ["south", "east", "west", "up", "down"] := rfl
    rw [hdirs, List.flatMap_cons]
    have hentry : exitEntry (w.connectRooms a "north" b) a "north" =
        [("north", segLast (entityUri b).value)] := by
      unfold exitEntry
      rw [hobjsA]
    rw [hentry]
    have hval : segLast (entityUri b).value = b := by
      simpa [entityUri, createNamedNode, Term.value] using h2
    simp [List.lookup, hval]
  · rw [getRoomExits_eq_bind]
    apply lookup_eq_none_of_forall
    intro x hx
    rw [List.mem_flatMap] at hx
    obtain ⟨d, hd, hxe⟩ := hx
    have hxd : x.1 = d := exitEntry_key _ _ _ x hxe
    rw [hxd]
    intro hdk
    rw [hdk] at hxe
    have hempty : exitEntry (w.connectRooms a "north" b) b "south" = [] := by
      unfold exitEntry
      rw [hobjsB]
    rw [hempty] at hxe
    exact absurd hxe (List.not_mem_nil _)

/-- Closed instance of `c7_connectRooms_one_directional` at `wC7b`:
connecting room-1 north to room-2. -/
theorem c7_connectRooms_one_directional_witness :
    ((wC7b.connectRooms "room-1" "north" "room-2").getRoomExits
      "room-1").lookup "north" = some "room-2" ∧
    ((wC7b.connectRooms "room-1" "north" "room-2").getRoomExits
      "room-2").lookup "south" = none :=
  c7_connectRooms_one_directional wC7b "room-1" "room-2" (by decide) (by decide)
    (by decide)

/-- C5: dispatching take for a player in a room containing a matching item
(`itemId` is the match found by the command's search over the room's
items, the room holds the item's location triple as `placeItem` writes it,
and the room's mud:contains objects are entity URIs — the invariant every
API-built world satisfies).  If the item is portable, take succeeds,
removes the item from `getRoomItems` of the room and adds it to
`getPlayerInventory` of the actor; if it is not portable, take fails and
the world — in particular both queries — is unchanged. -/
theorem c5_take_portable_moves_item (w : MudWorld) (playerId roomId itemId : String)
    (args : List String)
    (hargs : args ≠ [])
    (hloc : w.getPlayerLocation playerId = some roomId)
    (hfind : findItemByName w (w.getRoomItems roomId)
      (jsToLower (joinSpace args)) = some itemId)
    (hpair : mkQuad (entityUri itemId) mudVocab.location (entityUri roomId) none ∈
      w.store.store)
    (huris : ∀ t ∈ w.store.getObjects (entityUri roomId) mudVocab.contains none,
      t = entityUri (segLast t.value))
    (hid : segLast ("http://example.org/game/" ++ itemId) = itemId)
    (hg : ∀ q ∈ w.store.store, q.graph = Term.defaultGraph) :
    (w.isItemPortable itemId = true →
      (takeExecute w playerId args).1.success = true ∧
      itemId ∉ (takeExecute w playerId args).2.getRoomItems roomId ∧
      itemId ∈ (takeExecute w playerId args).2.getPlayerInventory playerId) ∧
    (w.isItemPortable itemId = false →
      (takeExecute w playerId args).1.success = false ∧
      (takeExecute w playerId args).2 = w ∧
      (takeExecute w playerId args).2.getRoomItems roomId =
        w.getRoomItems roomId ∧
      (takeExecute w playerId args).2.getPlayerInventory playerId =
        w.getPlayerInventory playerId) := by
  have hargs' : args.isEmpty = false := by
    cases args with
    | nil => exact absurd rfl hargs
    | cons a as => rfl
  have hred : takeExecute w playerId args =
      (if !(w.isItemPortable itemId) then
        ({ success := false, message := "You can\x27t take that." }, w)
      else
        ({ success := true
           message := "You take the " ++ (w.getItemName itemId).getD "null" ++
             "." }, w.addToInventory playerId itemId)) := by
    simp [takeExecute, hargs', hloc, hfind]
  constructor
  · intro hport
    rw [hred]
    simp only [hport, Bool.not_true, Bool.false_eq_true, if_false]
    obtain ⟨hinv, _hlocs, hcont, _hpres, hsub⟩ :=
      addToInventory_spec w playerId itemId hg
    refine ⟨trivial, ?_, ?_⟩
    · intro hmem
      unfold MudWorld.getRoomItems at hmem
      obtain ⟨t, htmem, hteq⟩ := List.mem_map.1 hmem
      rw [getObjects_def] at htmem
      obtain ⟨q, hqf, hqobj⟩ := List.mem_map.1 htmem
      obtain ⟨hqmem, hqp⟩ := List.mem_filter.1 hqf
      have hqp' : q.subject = entityUri roomId ∧ q.predicate = mudVocab.contains :=
        of_decide_eq_true hqp
      rcases hsub q hqmem with hqw | hqi | hql
      · have htold : t ∈ w.store.getObjects (entityUri roomId) mudVocab.contains
            none := by
          rw [← hqobj]
          exact mem_getObjects_of_mem hqw hqp'.1 hqp'.2
        have ht2 : t = entityUri (segLast t.value) := huris t htold
        rw [hteq] at ht2
        have hqeq : q = mkQuad (entityUri roomId) mudVocab.contains q.object
            none := quad_eq_mkQuad hqp'.1 hqp'.2 (hg q hqw)
        rw [hqobj, ht2] at hqeq
        have hroomloc : entityUri roomId ∈ w.store.getObjects (entityUri itemId)
            mudVocab.location none := mem_getObjects_of_mem hpair rfl rfl
        rw [hqeq] at hqmem
        exact hcont (entityUri roomId) hroomloc hqmem
      · rw [hqi] at hqp'
        have h3 : mudVocab.inventory = mudVocab.contains := hqp'.2
        exact absurd h3 (by decide)
      · rw [hql] at hqp'
        have h3 : mudVocab.location = mudVocab.contains := hqp'.2
        exact absurd h3 (by decide)
    · have hmemobj : entityUri itemId ∈
          (w.addToInventory playerId itemId).store.getObjects (entityUri playerId)
            mudVocab.inventory none := mem_getObjects_of_mem hinv rfl rfl
      unfold MudWorld.getPlayerInventory
      refine List.mem_map.2 ⟨entityUri itemId, hmemobj, ?_⟩
      simpa [entityUri, createNamedNode, Term.value] using hid
  · intro hport
    rw [hred]
    simp [hport]

/-- Closed instance of `c5_take_portable_moves_item` at `wC5`: taking the
portable "ancient tome" succeeds and moves it from the room to the
inventory; taking the non-portable "granite statue" fails and leaves the
world unchanged. -/
theorem c5_take_portable_moves_item_witness :
    (takeExecute wC5 "player-4" ["tome"]).1.success = true ∧
    "item-2" ∉ (takeExecute wC5 "player-4" ["tome"]).2.getRoomItems "room-1" ∧
    "item-2" ∈ (takeExecute wC5 "player-4" ["tome"]).2.getPlayerInventory
      "player-4" ∧
    (takeExecute wC5 "player-4" ["granite"]).1.success = false ∧
    (takeExecute wC5 "player-4" ["granite"]).2 = wC5 := by
  have h1 := c5_take_portable_moves_item wC5 "player-4" "room-1" "item-2" ["tome"]
    (by decide) (by decide) (by decide) (by decide) (by decide) (by decide)
    (by decide)
  have h2 := c5_take_portable_moves_item wC5 "player-4" "room-1" "item-3"
    ["granite"] (by decide) (by decide) (by decide) (by decide) (by decide)
    (by decide) (by decide)
  obtain ⟨ha, hb, hc⟩ := h1.1 (by decide)
  obtain ⟨hd, he, _, _⟩ := h2.2 (by decide)
  exact ⟨ha, hb, hc, hd, he⟩
